import Mathlib

/-!
Verification of the recommendation core of the EmotionDetector deployment
repository, covering src/books.py and src/movie.py.

The embedding models Python dictionaries of catalog items as association
lists of string keys and scalar values, Python exceptions as the
Except Unit monad (so a raised TypeError / IndexError is the value
Except.error ()), and the network boundary (Open Library search, TMDB
genre list and discover) as oracle functions passed explicitly, keyed by
the exact query parameters the code builds.  Sorting with
sorted(key=..., reverse=True) is modelled as a stable descending
insertion sort in the error monad: it produces the same ordering as the
Python sort whenever no key comparison raises, and it agrees with the
Python sort on whether a comparison raises for the two-element lists used
in the refutations below.
-/

/-- Python scalar values occurring in the modelled catalog item fields:
numbers (int and float are modelled together as rationals), strings, and
None. -/
inductive Val where
  | num (q : ℚ)
  | str (s : String)
  | null
deriving DecidableEq

/-- Python truthiness of the modelled values: 0, the empty string and None
are falsy. -/
def Val.truthy : Val → Bool
  | .num q => q != 0
  | .str s => s != ""
  | .null => false

/-- Python comparison a < b on scalars: numbers compare numerically,
strings lexicographically by code point; every other combination (and any
comparison involving None) raises TypeError, modelled as none. -/
def pyLt : Val → Val → Option Bool
  | .num a, .num b => some (decide (a < b))
  | .str a, .str b => some (decide (a < b))
  | _, _ => none

/-- Python comparison of two tuples as performed by list.sort: scan for the
first position where the components are not equal (== between different
scalar types is False and never raises) and compare that position with
pyLt; a longer tuple with an equal shorter one as a front part compares
greater. -/
def pyListLt : List Val → List Val → Option Bool
  | [], [] => some false
  | [], _ :: _ => some true
  | _ :: _, [] => some false
  | a :: u, b :: v => if a = b then pyListLt u v else pyLt a b

/-- A catalog item record: a Python dict with string keys and scalar
values. -/
abbrev Item := List (String × Val)

/-- Lookup in an association list, used both for dict.get on item records
and for the static configuration tables. -/
def alist_get {β : Type} : List (String × β) → String → Option β
  | [], _ => none
  | (k, v) :: rest, f => if k = f then some v else alist_get rest f

/-- Python d.get(f) on an item record. -/
def fget (d : Item) (f : String) : Option Val := alist_get d f

/-- Python d.get(f, default) on an item record. -/
def fgetD (d : Item) (f : String) (v : Val) : Val := (fget d f).getD v

/-- Python d[f] = v on an item record: replace the binding if the key is
present, otherwise append it. -/
def fset : Item → String → Val → Item
  | [], f, v => [(f, v)]
  | (k, w) :: rest, f, v => if k = f then (f, v) :: rest else (k, w) :: fset rest f v

/-- One step of the stable descending insertion modelling
sorted(key=..., reverse=True): x is placed before the first element y
such that the key of x is not below the key of y; a key comparison that
raises propagates as an error. -/
def insertD (lt : α → α → Option Bool) (x : α) : List α → Except Unit (List α)
  | [] => .ok [x]
  | y :: ys =>
    match lt x y with
    | none => .error ()
    | some true => (insertD lt x ys).map (y :: ·)
    | some false => .ok (x :: y :: ys)

/-- Stable descending sort in the error monad.  On inputs where no
comparison raises it computes exactly the ordering of Python
sorted(key=..., reverse=True): descending by key, ties in input order. -/
def sortD (lt : α → α → Option Bool) : List α → Except Unit (List α)
  | [] => .ok []
  | x :: xs => (sortD lt xs).bind (insertD lt x)

/-! ## books.py: static configuration -/

/-- The fixed label order of the emotion model (books.py line 10 and
movie.py line 14 define the same list). -/
def EMO_CLASSES : List String :=
  ["Angry", "Disgust", "Fear", "Happy", "Sad", "Surprise", "Neutral"]

/-- One row of an emotion-to-categories table, with the two mode entries
of the Python dict. -/
structure MoodRow where
  matchCats : List String
  liftCats : List String
deriving DecidableEq

/-- BOOK_MOOD_SUBJECTS from books.py. -/
def BOOK_MOOD_SUBJECTS : List (String × MoodRow) :=
  [ ("Happy", ⟨["Humor", "Romance", "Family life", "Comics & graphic novels"],
               ["Adventure stories", "Fantasy fiction", "Travel"]⟩),
    ("Sad", ⟨["Domestic fiction", "Psychological fiction", "Biographies", "Music"],
             ["Humor", "Romance", "Inspiration", "Friendship"]⟩),
    ("Angry", ⟨["Thrillers", "Crime", "Revenge", "Dystopias"],
               ["Sports stories", "Humor"]⟩),
    ("Fear", ⟨["Horror", "Ghost stories", "Supernatural", "Mystery fiction"],
              ["Fantasy fiction", "Adventure stories", "Young adult fiction"]⟩),
    ("Disgust", ⟨["True crime", "War", "Corruption", "Social psychology"],
                 ["History", "Biography", "Inspirational"]⟩),
    ("Surprise", ⟨["Mystery fiction", "Time travel", "Heist", "Science fiction"],
                  ["Romance", "Humor"]⟩),
    ("Neutral", ⟨["Coming of age", "Slice of life", "Essays", "Documentary films"],
                 ["Humor", "Travel", "Adventure stories"]⟩) ]

/-- The category lookup performed at the start of
discover_books_for_emotion (books.py lines 91-92):
BOOK_MOOD_SUBJECTS.get(emotion, BOOK_MOOD_SUBJECTS["Neutral"]) followed by
emo_cfg.get(mode, emo_cfg["match"]).  The inner default row is never used
since "Neutral" is a key of the table. -/
def categoriesForBooks (emotion mode : String) : List String :=
  let cfg := (alist_get BOOK_MOOD_SUBJECTS emotion).getD
      ((alist_get BOOK_MOOD_SUBJECTS "Neutral").getD ⟨[], []⟩)
  if mode = "match" then cfg.matchCats
  else if mode = "lift" then cfg.liftCats
  else cfg.matchCats

/-! ## books.py: ranking -/

/-- First component of the rank_books key (books.py lines 66-71):
ra if isinstance(ra, (int, float)) else -1, where ra is
d.get("ratings_average", None).  A missing or non-numeric rating degrades
to the sentinel -1. -/
def raKey (d : Item) : Val :=
  match fget d "ratings_average" with
  | some (.num q) => .num q
  | _ => .num (-1)

/-- The Python expression d.get(f, 0) or 0: a missing or falsy field
value degrades to 0, a truthy value (numeric or not) is kept as is. -/
def numOr0 (d : Item) (f : String) : Val :=
  let v := fgetD d f (.num 0)
  if v.truthy then v else .num 0

/-- The full sort key tuple of rank_books: (ratings_average sentinel,
edition_count or 0, first_publish_year or 0). -/
def bookQualityKey (d : Item) : List Val :=
  [raKey d, numOr0 d "edition_count", numOr0 d "first_publish_year"]

/-- Key comparison of the quality-first book comparator. -/
def ltQuality (a b : Item) : Option Bool := pyListLt (bookQualityKey a) (bookQualityKey b)

/-- rank_books from books.py lines 62-72 (the source name carries a
leading underscore): stable descending sort by the quality key. -/
def rank_books (docs : List Item) : Except Unit (List Item) := sortD ltQuality docs

/-- Sort key of the unfiltered-fallback ranking (books.py line 115):
(edition_count or 0, first_publish_year or 0). -/
def bookPopKey (d : Item) : List Val :=
  [numOr0 d "edition_count", numOr0 d "first_publish_year"]

/-- Key comparison of the popularity-first book comparator. -/
def ltPopBooks (a b : Item) : Option Bool := pyListLt (bookPopKey a) (bookPopKey b)

/-- The popularity-first ranking used on the unfiltered fallback path of
discover_books_for_emotion (books.py line 115). -/
def rankBooksFallback (docs : List Item) : Except Unit (List Item) := sortD ltPopBooks docs

/-! ## books.py: discover_books_for_emotion -/

/-- String form of a scalar value inside a Python f-string.  For the
integers the catalog delivers this agrees with Python str(); the exact
text of a formatted non-integer is immaterial to every claim below. -/
def valStr : Val → String
  | .num q => if q.den = 1 then toString q.num else toString q.num ++ "/" ++ toString q.den
  | .str s => s
  | .null => "None"

def OL_BASE : String := "https://openlibrary.org"

def COV_BASE : String := "https://covers.openlibrary.org"

/-- cover_url from books.py lines 74-82 with the default size L: a cover
URL when cover_i is present and truthy, otherwise None. -/
def cover_url (d : Item) : Val :=
  let c := fgetD d "cover_i" .null
  if c.truthy then .str (COV_BASE ++ "/b/id/" ++ valStr c ++ "-L.jpg") else .null

/-- The per-item enrichment of the success path of
discover_books_for_emotion (books.py lines 102-106): the mood label, the
joined subject list that produced the hit, a resolved cover URL, and the
work URL when a key is present. -/
def tagBook (emotion : String) (try_subjects : List String) (d : Item) : Item :=
  let d1 := fset d "_mood" (.str emotion)
  let d2 := fset d1 "_subjects" (.str (String.intercalate ", " try_subjects))
  let d3 := fset d2 "_cover" (cover_url d2)
  fset d3 "_work_url"
    (if (fgetD d3 "key" .null).truthy then .str (OL_BASE ++ valStr (fgetD d3 "key" .null)) else .null)

/-- The per-item enrichment of the unfiltered fallback path
(books.py lines 116-120); the subjects marker is the em dash sentinel. -/
def tagBookFallback (emotion : String) (d : Item) : Item :=
  let d1 := fset d "_mood" (.str emotion)
  let d2 := fset d1 "_subjects" (.str "—")
  let d3 := fset d2 "_cover" (cover_url d2)
  fset d3 "_work_url"
    (if (fgetD d3 "key" .null).truthy then .str (OL_BASE ++ valStr (fgetD d3 "key" .null)) else .null)

/-- One Open Library search request as built by _ol_search_by_subjects and
by the inline fallback request of discover_books_for_emotion: the subject
filters in order, the optional language filter, limit, page and the
requested field list. -/
structure BookQuery where
  subjects : List String
  language : Option String
  limit : ℕ
  page : ℕ
  fields : List String
deriving DecidableEq

/-- The field list requested by _ol_search_by_subjects (books.py
line 56). -/
def FIELDS_FULL : List String :=
  ["title", "author_name", "first_publish_year", "cover_i", "ratings_average",
   "edition_count", "key"]

/-- The field list of the unfiltered fallback request (books.py line 109):
the same minus ratings_average. -/
def FIELDS_FALLBACK : List String :=
  ["title", "author_name", "first_publish_year", "cover_i", "edition_count", "key"]

/-- The filtered query issued for the first k subjects. -/
def bookSubjectQuery (subs : List String) (language : Option String) (limit page k : ℕ) :
    BookQuery :=
  ⟨subs.take k, language, limit, page, FIELDS_FULL⟩

/-- The final unfiltered query (no subject filter). -/
def bookFallbackQuery (language : Option String) (limit page : ℕ) : BookQuery :=
  ⟨[], language, limit, page, FIELDS_FALLBACK⟩

/-- The countdown loop of discover_books_for_emotion (books.py
lines 95-121), indexed by the current prefix length k.  The oracle stands
for the Open Library search boundary (request plus docs extraction, with
data.get("docs", []) or [] folded in); the second component records every
query issued, in order.  At k = 0 the Python for loop is exhausted and the
unfiltered fallback request with the coarser ranking runs. -/
def bookLoop (oracle : BookQuery → List Item) (subs : List String) (language : Option String)
    (limit page : ℕ) (emotion : String) : ℕ → Except Unit (List Item) × List BookQuery
  | 0 =>
    let q := bookFallbackQuery language limit page
    ((rankBooksFallback (oracle q)).map (List.map (tagBookFallback emotion)), [q])
  | k + 1 =>
    let q := bookSubjectQuery subs language limit page (k + 1)
    let docs := oracle q
    if docs = [] then
      let r := bookLoop oracle subs language limit page emotion k
      (r.1, q :: r.2)
    else
      ((rank_books docs).map (List.map (tagBook emotion (subs.take (k + 1)))), [q])

/-- discover_books_for_emotion from books.py lines 84-121, relative to a
search oracle.  Returns the Python return value (raised exceptions from
ranking propagate) together with the trace of issued queries. -/
def discover_books_for_emotion (oracle : BookQuery → List Item) (emotion mode : String)
    (language_ol : Option String) (per_page page : ℕ) :
    Except Unit (List Item) × List BookQuery :=
  let subjects := categoriesForBooks emotion mode
  bookLoop oracle subjects language_ol per_page page emotion subjects.length

/-! ## movie.py: configuration and discover_movies_for_emotion -/

/-- MOOD_GENRES from movie.py. -/
def MOOD_GENRES : List (String × MoodRow) :=
  [ ("Happy", ⟨["Comedy", "Romance", "Family", "Animation"],
               ["Adventure", "Sci-Fi", "Fantasy"]⟩),
    ("Sad", ⟨["Drama", "Music", "Biography"],
             ["Comedy", "Family", "Animation", "Romance"]⟩),
    ("Angry", ⟨["Action", "Crime", "Thriller"],
               ["Comedy", "Sports"]⟩),
    ("Fear", ⟨["Horror", "Thriller", "Mystery"],
              ["Animation", "Adventure", "Fantasy"]⟩),
    ("Disgust", ⟨["Documentary", "Crime", "War"],
                 ["Drama", "Biography", "History"]⟩),
    ("Surprise", ⟨["Mystery", "Sci-Fi", "Adventure", "Fantasy"],
                  ["Comedy", "Romance"]⟩),
    ("Neutral", ⟨["Drama", "Documentary", "Comedy"],
                 ["Comedy", "Adventure"]⟩) ]

/-- The category lookup at the start of discover_movies_for_emotion
(movie.py lines 79-80), with the same double-get shape as the book
variant. -/
def categoriesForMovies (emotion mode : String) : List String :=
  let cfg := (alist_get MOOD_GENRES emotion).getD
      ((alist_get MOOD_GENRES "Neutral").getD ⟨[], []⟩)
  if mode = "match" then cfg.matchCats
  else if mode = "lift" then cfg.liftCats
  else cfg.matchCats

/-- Truthiness of an optional string parameter (Python if region, if
recent_gte): present and non-empty. -/
def optTruthy (o : Option String) : Bool := (o.getD "") != ""

/-- One TMDB discover request as built by discover_movies_for_emotion:
the base parameters plus the optional region, recency and genre
filters. -/
structure MovieQuery where
  language : String
  sort_by : String
  page : ℕ
  include_adult : String
  vote_count_gte : ℤ
  region : Option String
  primary_release_date_gte : Option String
  with_genres : Option String
deriving DecidableEq

/-- discover_movies_for_emotion from movie.py lines 68-119, relative to
the TMDB boundary: genreMap models the name-to-id dictionary built by
get_genre_id_map from the genre list endpoint, and the oracle models the
discover endpoint (results extraction with data.get("results", []) or []
folded in).  The first component is the Python return value: when the
attempt with genre filter, the attempt with the halved vote floor, and
(only when a recency bound was supplied) the attempt without the recency
bound all yield no results, control falls off the end of the function, so
the model returns none, modelling the implicit Python return None.  The
second component is the trace of issued discover queries in order. -/
def discover_movies_for_emotion (genreMap : List (String × ℤ))
    (oracle : MovieQuery → List Item) (emotion mode language : String)
    (region : Option String) (page : ℕ) (min_votes : ℤ) (include_adult : Bool)
    (recent_gte : Option String) : Option (List Item) × List MovieQuery :=
  let emo_cfg := (alist_get MOOD_GENRES emotion).getD
      ((alist_get MOOD_GENRES "Neutral").getD ⟨[], []⟩)
  let genre_names := if mode = "match" then emo_cfg.matchCats
    else if mode = "lift" then emo_cfg.liftCats
    else emo_cfg.matchCats
  let with_genres := String.intercalate ","
      ((genre_names.filter (fun g => (alist_get genreMap g).isSome)).map
        (fun g => toString ((alist_get genreMap g).getD 0)))
  let p1 : MovieQuery :=
    { language := language
      sort_by := "popularity.desc"
      page := page
      include_adult := if include_adult then "true" else "false"
      vote_count_gte := min_votes
      region := if optTruthy region then region else none
      primary_release_date_gte := if optTruthy recent_gte then recent_gte else none
      with_genres := if with_genres ≠ "" then some with_genres else none }
  let r1 := oracle p1
  if r1 ≠ [] then (some r1, [p1])
  else
    let p2 := { p1 with vote_count_gte := max 0 (Int.fdiv min_votes 2) }
    let r2 := oracle p2
    if r2 ≠ [] then (some r2, [p1, p2])
    else
      if p2.primary_release_date_gte.isSome then
        let p3 := { p2 with primary_release_date_gte := none }
        let r3 := oracle p3
        if r3 ≠ [] then (some r3, [p1, p2, p3])
        else (none, [p1, p2, p3])
      else (none, [p1, p2])

/-! ## Aggregators: top-k selection, scoring, dedup, cap -/

/-- The ascending order underlying np.argsort on the emotion probability
vector: index i comes before index j when its value is smaller, ties by
index order.  This is the characterization of a stable ascending argsort;
numpy argsort is stable on the short (7 element) vectors used here, where
its introsort runs as an insertion sort. -/
def argsortLe (xs : List ℚ) (i j : ℕ) : Prop :=
  xs.getD i 0 < xs.getD j 0 ∨ (xs.getD i 0 = xs.getD j 0 ∧ i ≤ j)

instance (xs : List ℚ) : DecidableRel (argsortLe xs) := fun i j =>
  inferInstanceAs (Decidable (xs.getD i 0 < xs.getD j 0 ∨ (xs.getD i 0 = xs.getD j 0 ∧ i ≤ j)))

/-- np.argsort(y_prob) as a stable ascending sort of the index range. -/
def argsortAsc (y_prob : List ℚ) : List ℕ :=
  List.insertionSort (argsortLe y_prob) (List.range y_prob.length)

/-- np.argsort(y_prob)[::-1][:k] as computed at books.py line 131 and
movie.py line 135. -/
def top_idxs (y_prob : List ℚ) (k : ℕ) : List ℕ :=
  ((argsortAsc y_prob).reverse).take k

/-- Python float(v) applied to the modelled scalars: a number converts to
itself, float(None) raises, and float(s) on the string field values
occurring in the modelled catalog data raises (strings that spell a
number, which the modelled fields never carry, are not modelled). -/
def pyFloat : Val → Except Unit ℚ
  | .num q => .ok q
  | _ => .error ()

/-- The popularity proxy of the book score (books.py line 137): the value
of d.get("edition_count", 0) or 1, so a missing or falsy edition count
degrades to 1. -/
def bookScoreVal (d : Item) : Val :=
  let v := fgetD d "edition_count" (.num 0)
  if v.truthy then v else .num 1

/-- The book score float(y_prob[idx]) * float(d.get("edition_count", 0) or 1)
(books.py line 137). -/
def scoreBook (p : ℚ) (d : Item) : Except Unit ℚ := (pyFloat (bookScoreVal d)).map (p * ·)

/-- The movie score float(y_prob[idx]) * float(m.get("popularity", 0.0))
(movie.py line 144): a missing popularity degrades to 0. -/
def scoreMovie (p : ℚ) (m : Item) : Except Unit ℚ :=
  (pyFloat (fgetD m "popularity" (.num 0))).map (p * ·)

/-- The seen-set deduplication loop of both aggregators (books.py
lines 141-148, movie.py lines 150-157), keyed on the identity field f:
walk the sorted pool, keep an item when d.get(f) has not been seen,
record the key (a missing field records the shared key None). -/
def dedupBy (f : String) : List Item → List (Option Val) → List Item
  | [], _ => []
  | d :: ds, seen =>
    let key := fget d f
    if key ∈ seen then dedupBy f ds seen
    else d :: dedupBy f ds (key :: seen)

/-- The pool sort key x.get("_score", 0.0) of both aggregators. -/
def scoreKey (x : Item) : Val := fgetD x "_score" (.num 0)

/-- Pool comparison: the sort key is a scalar, compared directly. -/
def ltScore (a b : Item) : Option Bool := pyLt (scoreKey a) (scoreKey b)

/-- The shared tail of both aggregators: sort the pool descending by
score, deduplicate on the identity field, truncate to the hard cap of
20. -/
def aggTail (idField : String) (pool : List Item) : Except Unit (List Item) :=
  (sortD ltScore pool).map (fun s => (dedupBy idField s []).take 20)

/-- The pool construction loop of recommend_books_from_probs (books.py
lines 132-139) over the selected emotion indices: look up the class name
(an out-of-range index raises IndexError), run the discover engine, slice
to per_emotion, score each doc and stamp the score into the item.  The
probability lookup y_prob[idx] is written with a default since every
index produced by the argsort is in range. -/
def buildPoolBooks (oracle : BookQuery → List Item) (y_prob : List ℚ)
    (class_names : List String) (mode : String) (per_emotion : ℕ)
    (language_ol : Option String) : List ℕ → Except Unit (List Item)
  | [] => .ok []
  | idx :: rest =>
    match class_names.get? idx with
    | none => .error ()
    | some emo => do
      let docs ← (discover_books_for_emotion oracle emo mode language_ol per_emotion 1).1
      let p := y_prob.getD idx 0
      let scored ← (docs.take per_emotion).mapM
        (fun d => (scoreBook p d).map (fun s => fset d "_score" (.num s)))
      let restPool ← buildPoolBooks oracle y_prob class_names mode per_emotion language_ol rest
      .ok (scored ++ restPool)

/-- recommend_books_from_probs from books.py lines 123-149, relative to
the search oracle: select the top k emotion indices, build the scored
pool, sort, deduplicate on the work key, truncate to 20. -/
def recommend_books_from_probs (oracle : BookQuery → List Item) (y_prob : List ℚ)
    (class_names : List String) (mode : String) (k per_emotion : ℕ)
    (language_ol : Option String) : Except Unit (List Item) :=
  (buildPoolBooks oracle y_prob class_names mode per_emotion language_ol
      (top_idxs y_prob k)).bind (aggTail "key")

/-- The pool construction loop of recommend_from_probs (movie.py
lines 136-147): look up the class name, run the movie discover engine,
slice the result to per_emotion, which raises TypeError when the engine
returned None, then score and stamp the mood and the score.  The score is
computed from the popularity field, which the two stamps do not touch, so
stamping after scoring is equivalent to the in-place order of the
source. -/
def buildPoolMovies (genreMap : List (String × ℤ)) (oracle : MovieQuery → List Item)
    (y_prob : List ℚ) (class_names : List String) (mode language : String)
    (region : Option String) (min_votes : ℤ) (include_adult : Bool)
    (recent_gte : Option String) (per_emotion : ℕ) : List ℕ → Except Unit (List Item)
  | [] => .ok []
  | idx :: rest =>
    match class_names.get? idx with
    | none => .error ()
    | some emo =>
      match (discover_movies_for_emotion genreMap oracle emo mode language region 1
          min_votes include_adult recent_gte).1 with
      | none => .error ()
      | some recs => do
        let p := y_prob.getD idx 0
        let scored ← (recs.take per_emotion).mapM
          (fun m => (scoreMovie p m).map
            (fun s => fset (fset m "_mood" (.str emo)) "_score" (.num s)))
        let restPool ← buildPoolMovies genreMap oracle y_prob class_names mode language
          region min_votes include_adult recent_gte per_emotion rest
        .ok (scored ++ restPool)

/-- recommend_from_probs from movie.py lines 123-158, relative to the
TMDB boundary: select the top k emotion indices, build the scored pool,
sort, deduplicate on the id field, truncate to 20. -/
def recommend_from_probs (genreMap : List (String × ℤ)) (oracle : MovieQuery → List Item)
    (y_prob : List ℚ) (class_names : List String) (mode language : String)
    (region : Option String) (min_votes : ℤ) (include_adult : Bool)
    (recent_gte : Option String) (k per_emotion : ℕ) : Except Unit (List Item) :=
  (buildPoolMovies genreMap oracle y_prob class_names mode language region min_votes
      include_adult recent_gte per_emotion (top_idxs y_prob k)).bind (aggTail "id")

/-! ## Helper definitions used by the statements below -/

instance {ε α : Type} [DecidableEq ε] [DecidableEq α] : DecidableEq (Except ε α)
  | .ok a, .ok b => if h : a = b then .isTrue (by rw [h]) else .isFalse (by simp [h])
  | .ok _, .error _ => .isFalse (by simp)
  | .error _, .ok _ => .isFalse (by simp)
  | .error a, .error b => if h : a = b then .isTrue (by rw [h]) else .isFalse (by simp [h])

/-- The filtered queries issued by the subject countdown, from the k long
front part of the subject list down to the single leading subject. -/
def countdownQueries (subs : List String) (language : Option String) (limit page : ℕ) :
    ℕ → List BookQuery
  | 0 => []
  | k + 1 =>
    bookSubjectQuery subs language limit page (k + 1) ::
      countdownQueries subs language limit page k

/-- A pool of 22 scored items with 21 distinct identity keys: the key a20
appears twice, with scores 1 and 0, while the 20 other keys carry the
scores 21 down to 2.  Exercises the interplay of deduplication and the
hard cap of 20. -/
def poolTwentyTwo : List Item :=
  (List.range 21).map
    (fun i => [("key", Val.str ("a" ++ toString i)), ("_score", Val.num (21 - (i : ℚ)))]) ++
  [[("key", Val.str "a20"), ("_score", Val.num 0)]]

/-! ## Generic lemmas about the modelled Python sort -/

/-- Equal scalars never compare as strictly below each other. -/
theorem pyLt_self (a : Val) : pyLt a a = none ∨ pyLt a a = some false := by
  cases a <;> simp [pyLt]

/-- A tuple compares as not below itself (Python never calls lt on
identical positions since == short-circuits first). -/
theorem pyListLt_self (u : List Val) : pyListLt u u = some false := by
  induction u with
  | nil => rfl
  | cons a u ih => simp [pyListLt, ih]

/-- Scalar asymmetry: a strictly-below verdict flips to a not-below
verdict when the operands are swapped. -/
theorem pyLt_swap {a b : Val} (h : pyLt a b = some true) : pyLt b a = some false := by
  cases a <;> cases b <;> simp_all [pyLt] <;> exact le_of_lt h

/-- Tuple asymmetry. -/
theorem pyListLt_swap : ∀ {u v : List Val}, pyListLt u v = some true →
    pyListLt v u = some false
  | [], [], h => by simp [pyListLt] at h
  | [], _ :: _, _ => by simp [pyListLt]
  | _ :: _, [], h => by simp [pyListLt] at h
  | a :: u, b :: v, h => by
    by_cases hab : a = b
    · subst hab
      simp only [pyListLt, if_pos rfl] at h ⊢
      exact pyListLt_swap h
    · have hba : ¬ b = a := fun hh => hab hh.symm
      simp only [pyListLt, if_neg hab] at h
      simp only [pyListLt, if_neg hba]
      exact pyLt_swap h

/-- An insert that succeeds splits the target list around the inserted
element, every passed-over element having compared strictly above it. -/
theorem insertD_eq_append {α : Type} (lt : α → α → Option Bool) (x : α) :
    ∀ (l m : List α), insertD lt x l = .ok m →
      ∃ p s, l = p ++ s ∧ m = p ++ x :: s ∧ ∀ y ∈ p, lt x y = some true := by
  intro l
  induction l with
  | nil =>
    intro m h
    simp only [insertD, Except.ok.injEq] at h
    exact ⟨[], [], rfl, by simp [← h], by simp⟩
  | cons y ys ih =>
    intro m h
    simp only [insertD] at h
    cases hc : lt x y with
    | none => rw [hc] at h; exact absurd h (by simp)
    | some b =>
      rw [hc] at h
      cases b with
      | false =>
        simp only [Except.ok.injEq] at h
        exact ⟨[], y :: ys, rfl, by simp [← h], by simp⟩
      | true =>
        cases hz : insertD lt x ys with
        | error e => rw [hz] at h; exact absurd h (by simp [Except.map])
        | ok zs =>
          rw [hz] at h
          simp only [Except.map, Except.ok.injEq] at h
          obtain ⟨p, s, hys, hzs, hp⟩ := ih zs hz
          refine ⟨y :: p, s, by simp [hys], by simp [← h, hzs], ?_⟩
          intro z hz2
          rcases List.mem_cons.mp hz2 with rfl | hz3
          · exact hc
          · exact hp z hz3

/-- A successful sort permutes its input. -/
theorem sortD_perm {α : Type} (lt : α → α → Option Bool) :
    ∀ (l m : List α), sortD lt l = .ok m → m.Perm l := by
  intro l
  induction l with
  | nil =>
    intro m h
    simp only [sortD, Except.ok.injEq] at h
    simp [← h]
  | cons x xs ih =>
    intro m h
    simp only [sortD] at h
    cases hs : sortD lt xs with
    | error e => rw [hs] at h; exact absurd h (by simp [Except.bind])
    | ok ys =>
      rw [hs] at h
      simp only [Except.bind] at h
      obtain ⟨p, s, hys, hm, -⟩ := insertD_eq_append lt x ys m h
      have h1 : m.Perm (x :: ys) := by
        rw [hm, hys]
        exact (List.perm_middle).trans (List.Perm.refl _)
      exact h1.trans ((ih ys hs).cons x)

/-- An insert succeeds whenever the inserted element compares against
every element of the target without raising. -/
theorem insertD_total {α : Type} (lt : α → α → Option Bool) (x : α) :
    ∀ (l : List α), (∀ y ∈ l, (lt x y).isSome) → ∃ m, insertD lt x l = .ok m := by
  intro l
  induction l with
  | nil => exact fun _ => ⟨[x], rfl⟩
  | cons y ys ih =>
    intro h
    cases hc : lt x y with
    | none => exact absurd (h y (by simp)) (by simp [hc])
    | some b =>
      cases b with
      | false => exact ⟨x :: y :: ys, by simp [insertD, hc]⟩
      | true =>
        obtain ⟨m, hm⟩ := ih (fun z hz => h z (by simp [hz]))
        exact ⟨y :: m, by simp [insertD, hc, hm, Except.map]⟩

/-- A sort succeeds whenever every pair of input elements compares without
raising. -/
theorem sortD_total {α : Type} (lt : α → α → Option Bool) :
    ∀ (l : List α), (∀ a ∈ l, ∀ b ∈ l, (lt a b).isSome) → ∃ m, sortD lt l = .ok m := by
  intro l
  induction l with
  | nil => exact fun _ => ⟨[], rfl⟩
  | cons x xs ih =>
    intro h
    obtain ⟨ys, hys⟩ := ih (fun a ha b hb => h a (by simp [ha]) b (by simp [hb]))
    have hmem : ∀ y ∈ ys, (lt x y).isSome := by
      intro y hy
      have : y ∈ xs := (sortD_perm lt xs ys hys).mem_iff.mp hy
      exact h x (by simp) y (by simp [this])
    obtain ⟨m, hm⟩ := insertD_total lt x ys hmem
    exact ⟨m, by simp [sortD, hys, Except.bind, hm]⟩

/-- Inserting into a list whose adjacent pairs carry a not-below verdict
preserves that shape, given asymmetry of the comparison. -/
theorem insertD_chain {α : Type} (lt : α → α → Option Bool)
    (hsw : ∀ a b, lt a b = some true → lt b a = some false) (x : α) :
    ∀ (l m : List α), List.Chain' (fun a b => lt a b = some false) l →
      insertD lt x l = .ok m → List.Chain' (fun a b => lt a b = some false) m := by
  intro l
  induction l with
  | nil =>
    intro m _ h
    simp only [insertD, Except.ok.injEq] at h
    simp [← h]
  | cons y ys ih =>
    intro m hch h
    simp only [insertD] at h
    cases hc : lt x y with
    | none => rw [hc] at h; exact absurd h (by simp)
    | some b =>
      rw [hc] at h
      cases b with
      | false =>
        simp only [Except.ok.injEq] at h
        rw [← h]
        exact List.chain'_cons.mpr ⟨hc, hch⟩
      | true =>
        cases hz : insertD lt x ys with
        | error e => rw [hz] at h; exact absurd h (by simp [Except.map])
        | ok zs =>
          rw [hz] at h
          simp only [Except.map, Except.ok.injEq] at h
          have hzs : List.Chain' (fun a b => lt a b = some false) zs := ih zs hch.tail hz
          rw [← h]
          refine List.chain'_cons'.mpr ⟨?_, hzs⟩
          intro hd hhd
          obtain ⟨p, s, hys, hm, -⟩ := insertD_eq_append lt x ys zs hz
          cases p with
          | nil =>
            simp only [List.nil_append] at hm
            rw [hm] at hhd
            simp only [List.head?_cons, Option.mem_def, Option.some.injEq] at hhd
            rw [← hhd]
            exact hsw x y hc
          | cons a p2 =>
            rw [hm] at hhd
            simp only [List.cons_append, List.head?_cons, Option.mem_def,
              Option.some.injEq] at hhd
            rw [← hhd]
            rw [hys] at hch
            exact (List.chain'_cons.mp hch).1

/-- The output of a successful sort carries a not-below verdict on every
adjacent pair. -/
theorem sortD_chain {α : Type} (lt : α → α → Option Bool)
    (hsw : ∀ a b, lt a b = some true → lt b a = some false) :
    ∀ (l m : List α), sortD lt l = .ok m →
      List.Chain' (fun a b => lt a b = some false) m := by
  intro l
  induction l with
  | nil =>
    intro m h
    simp only [sortD, Except.ok.injEq] at h
    simp [← h]
  | cons x xs ih =>
    intro m h
    simp only [sortD] at h
    cases hs : sortD lt xs with
    | error e => rw [hs] at h; exact absurd h (by simp [Except.bind])
    | ok ys =>
      rw [hs] at h
      simp only [Except.bind] at h
      exact insertD_chain lt hsw x ys m (ih ys hs) h

/-- A list whose adjacent pairs carry a not-below verdict is a fixed point
of the sort. -/
theorem sortD_of_chain {α : Type} (lt : α → α → Option Bool) :
    ∀ (m : List α), List.Chain' (fun a b => lt a b = some false) m →
      sortD lt m = .ok m := by
  intro m
  induction m with
  | nil => intro _; rfl
  | cons x xs ih =>
    intro hch
    have hs : sortD lt xs = .ok xs := ih hch.tail
    cases xs with
    | nil => simp [sortD, Except.bind, insertD]
    | cons y ys =>
      have hxy : lt x y = some false := (List.chain'_cons.mp hch).1
      rw [show sortD lt (x :: y :: ys) = (sortD lt (y :: ys)).bind (insertD lt x) from rfl, hs]
      simp [Except.bind, insertD, hxy]

/-- A chain of verdicts is pairwise when the verdict is transitive on the
elements of the list. -/
theorem chain'_pairwise {α : Type} (R : α → α → Prop) :
    ∀ (l : List α), List.Chain' R l →
      (∀ a ∈ l, ∀ b ∈ l, ∀ c ∈ l, R a b → R b c → R a c) → List.Pairwise R l := by
  intro l
  induction l with
  | nil => intro _ _; exact List.Pairwise.nil
  | cons a l ih =>
    intro hch htr
    have hpl : List.Pairwise R l := ih hch.tail
      (fun x hx y hy z hz => htr x (List.mem_cons_of_mem a hx) y (List.mem_cons_of_mem a hy)
        z (List.mem_cons_of_mem a hz))
    refine List.pairwise_cons.mpr ⟨?_, hpl⟩
    intro b hb
    cases l with
    | nil => simp at hb
    | cons y ys =>
      have hay : R a y := (List.chain'_cons.mp hch).1
      rcases List.mem_cons.mp hb with rfl | hb2
      · exact hay
      · have hyb : R y b := (List.pairwise_cons.mp hpl).1 b hb2
        exact htr a (List.mem_cons_self a _) y (List.mem_cons_of_mem a (List.mem_cons_self y ys))
          b (List.mem_cons_of_mem a (List.mem_cons_of_mem y hb2)) hay hyb

/-- A successful insert prepends the element to the filtered subsequence
of its own key class and leaves every other key class untouched, provided
elements with equal keys never compare strictly. -/
theorem insertD_filter {α κ : Type} [DecidableEq κ] (lt : α → α → Option Bool) (key : α → κ)
    (hself : ∀ a b, key a = key b → lt a b ≠ some true) (x : α) :
    ∀ (l m : List α), insertD lt x l = .ok m → ∀ K : κ,
      m.filter (fun d => decide (key d = K)) =
        if key x = K then x :: l.filter (fun d => decide (key d = K))
        else l.filter (fun d => decide (key d = K)) := by
  intro l m h K
  obtain ⟨p, s, hl, hm, hp⟩ := insertD_eq_append lt x l m h
  have hpK : ∀ y ∈ p, key y ≠ K ∨ key x ≠ K := by
    intro y hy
    by_cases hxK : key x = K
    · left
      intro hyK
      exact hself x y (by rw [hxK, hyK]) (hp y hy)
    · right; exact hxK
  subst hl hm
  by_cases hxK : key x = K
  · have hpf : p.filter (fun d => decide (key d = K)) = [] := by
      apply List.filter_eq_nil_iff.mpr
      intro y hy
      rcases hpK y hy with hne | hne
      · simp [hne]
      · exact absurd hxK hne
    simp [List.filter_append, hpf, hxK]
  · simp [List.filter_append, hxK]

/-- A successful sort preserves the filtered subsequence of every key
class: the modelled Python sort is stable. -/
theorem sortD_filter_key {α κ : Type} [DecidableEq κ] (lt : α → α → Option Bool) (key : α → κ)
    (hself : ∀ a b, key a = key b → lt a b ≠ some true) :
    ∀ (l m : List α), sortD lt l = .ok m → ∀ K : κ,
      m.filter (fun d => decide (key d = K)) = l.filter (fun d => decide (key d = K)) := by
  intro l
  induction l with
  | nil =>
    intro m h K
    simp only [sortD, Except.ok.injEq] at h
    simp [← h]
  | cons x xs ih =>
    intro m h K
    simp only [sortD] at h
    cases hs : sortD lt xs with
    | error e => rw [hs] at h; exact absurd h (by simp [Except.bind])
    | ok ys =>
      rw [hs] at h
      simp only [Except.bind] at h
      rw [insertD_filter lt key hself x ys m h K]
      by_cases hxK : key x = K
      · simp [hxK, ih ys hs K, List.filter_cons]
      · simp [hxK, ih ys hs K, List.filter_cons]

/-- The deduplication loop keeps exactly the first occurrence of every
identity key value not already recorded as seen; keyless items all share
the key None. -/
theorem dedupBy_filter (f : String) (K : Option Val) :
    ∀ (l : List Item) (seen : List (Option Val)),
      (dedupBy f l seen).filter (fun d => decide (fget d f = K)) =
        if K ∈ seen then [] else (l.filter (fun d => decide (fget d f = K))).take 1 := by
  intro l
  induction l with
  | nil => intro seen; by_cases h : K ∈ seen <;> simp [dedupBy, h]
  | cons d ds ih =>
    intro seen
    by_cases hd : fget d f ∈ seen
    · rw [show dedupBy f (d :: ds) seen = dedupBy f ds seen by simp [dedupBy, hd]]
      rw [ih seen]
      by_cases hK : K ∈ seen
      · simp [hK]
      · have hdK : ¬ (fget d f = K) := fun he => hK (he ▸ hd)
        simp [hK, List.filter_cons, hdK]
    · rw [show dedupBy f (d :: ds) seen = d :: dedupBy f ds (fget d f :: seen) by
        simp [dedupBy, hd]]
      by_cases hdK : fget d f = K
      · have hK : ¬ K ∈ seen := fun hh => hd (hdK ▸ hh)
        rw [List.filter_cons, hdK, ih (K :: seen)]
        simp [hdK, hK, List.filter_cons]
      · rw [List.filter_cons]
        simp only [hdK, decide_False, if_false]
        rw [ih (fget d f :: seen)]
        have : (K ∈ fget d f :: seen) ↔ K ∈ seen := by
          simp [List.mem_cons]
          intro he
          exact absurd he.symm hdK
        rw [if_congr this rfl rfl]
        by_cases hK : K ∈ seen
        · simp [hK]
        · simp [hK, List.filter_cons, hdK]

/-! ## Facts about the book ranking keys and the argsort -/

/-- The first component of the quality key is numeric for every record:
non-numeric ratings degrade to the sentinel. -/
theorem raKey_isNum (d : Item) : ∃ q, raKey d = Val.num q := by
  unfold raKey
  cases fget d "ratings_average" with
  | none => exact ⟨-1, rfl⟩
  | some v =>
    cases v with
    | num q => exact ⟨q, rfl⟩
    | str s => exact ⟨-1, rfl⟩
    | null => exact ⟨-1, rfl⟩

/-- Tuple comparison never raises on all-numeric tuples. -/
theorem pyListLt_isSome_of_num :
    ∀ (u v : List Val), (∀ x ∈ u, ∃ q, x = Val.num q) → (∀ x ∈ v, ∃ q, x = Val.num q) →
      (pyListLt u v).isSome := by
  intro u
  induction u with
  | nil => intro v _ _; cases v <;> simp [pyListLt]
  | cons a u2 ih =>
    intro v hu hv
    cases v with
    | nil => simp [pyListLt]
    | cons b v2 =>
      by_cases hab : a = b
      · simp only [pyListLt, if_pos hab]
        exact ih v2 (fun x hx => hu x (List.mem_cons_of_mem a hx))
          (fun x hx => hv x (List.mem_cons_of_mem b hx))
      · simp only [pyListLt, if_neg hab]
        obtain ⟨qa, ha⟩ := hu a (List.mem_cons_self a u2)
        obtain ⟨qb, hb⟩ := hv b (List.mem_cons_self b v2)
        rw [ha, hb]
        simp [pyLt]

/-- The stable-argsort order is total. -/
theorem argsortLe_total (xs : List ℚ) : ∀ i j, argsortLe xs i j ∨ argsortLe xs j i := by
  intro i j
  rcases lt_trichotomy (xs.getD i 0) (xs.getD j 0) with h | h | h
  · exact Or.inl (Or.inl h)
  · rcases Nat.le_total i j with hij | hij
    · exact Or.inl (Or.inr ⟨h, hij⟩)
    · exact Or.inr (Or.inr ⟨h.symm, hij⟩)
  · exact Or.inr (Or.inl h)

/-- The stable-argsort order is transitive. -/
theorem argsortLe_trans (xs : List ℚ) :
    ∀ i j k, argsortLe xs i j → argsortLe xs j k → argsortLe xs i k := by
  intro i j k hij hjk
  rcases hij with h1 | ⟨h1, h1i⟩
  · rcases hjk with h2 | ⟨h2, h2i⟩
    · exact Or.inl (h1.trans h2)
    · exact Or.inl (h2 ▸ h1)
  · rcases hjk with h2 | ⟨h2, h2i⟩
    · exact Or.inl (h1 ▸ h2)
    · exact Or.inr ⟨h1.trans h2, h1i.trans h2i⟩

/-- The reversed argsort has as many entries as the probability vector. -/
theorem argsort_reverse_length (y_prob : List ℚ) :
    (argsortAsc y_prob).reverse.length = y_prob.length := by
  rw [List.length_reverse]
  unfold argsortAsc
  rw [List.length_insertionSort, List.length_range]

/-- The top index selection is nonempty as soon as the vector is nonempty
and at least one index is requested. -/
theorem top_idxs_ne_nil (y_prob : List ℚ) (k : ℕ) (hy : y_prob ≠ []) (hk : 1 ≤ k) :
    top_idxs y_prob k ≠ [] := by
  have hlen : (top_idxs y_prob k).length = min k y_prob.length := by
    unfold top_idxs
    rw [List.length_take, argsort_reverse_length]
  intro hnil
  rw [hnil] at hlen
  have hpos : 0 < y_prob.length := List.length_pos.mpr hy
  simp only [List.length_nil] at hlen
  omega

/-! ## The countdown structure of the book relaxation loop -/

/-- When every subject filter up to length k yields nothing, the loop
reaches the unfiltered fallback query, having issued the whole countdown
of filtered queries first. -/
theorem bookLoop_all_empty (oracle : BookQuery → List Item) (subs : List String)
    (language : Option String) (limit page : ℕ) (emotion : String) :
    ∀ k, (∀ j, 1 ≤ j → j ≤ k → oracle (bookSubjectQuery subs language limit page j) = []) →
      bookLoop oracle subs language limit page emotion k =
        ((rankBooksFallback (oracle (bookFallbackQuery language limit page))).map
            (List.map (tagBookFallback emotion)),
          countdownQueries subs language limit page k ++
            [bookFallbackQuery language limit page]) := by
  intro k
  induction k with
  | zero => intro _; simp [bookLoop, countdownQueries]
  | succ k ih =>
    intro h
    have hk1 : oracle (bookSubjectQuery subs language limit page (k + 1)) = [] :=
      h (k + 1) (Nat.succ_le_succ (Nat.zero_le k)) (le_refl _)
    rw [show bookLoop oracle subs language limit page emotion (k + 1) =
        (if oracle (bookSubjectQuery subs language limit page (k + 1)) = [] then
          ((bookLoop oracle subs language limit page emotion k).1,
            bookSubjectQuery subs language limit page (k + 1) ::
              (bookLoop oracle subs language limit page emotion k).2)
        else
          ((rank_books (oracle (bookSubjectQuery subs language limit page (k + 1)))).map
              (List.map (tagBook emotion (subs.take (k + 1)))),
            [bookSubjectQuery subs language limit page (k + 1)])) from rfl]
    rw [if_pos hk1, ih (fun j hj1 hj2 => h j hj1 (hj2.trans (Nat.le_succ k)))]
    simp [countdownQueries]

/-- When the filter of length k0 is the longest one that yields results,
the loop stops there: it issues exactly the countdown of filtered queries
from k down to k0 and returns the ranked, tagged result of the k0
query. -/
theorem bookLoop_hit (oracle : BookQuery → List Item) (subs : List String)
    (language : Option String) (limit page : ℕ) (emotion : String) :
    ∀ k k0, 1 ≤ k0 → k0 ≤ k →
      oracle (bookSubjectQuery subs language limit page k0) ≠ [] →
      (∀ j, k0 < j → j ≤ k → oracle (bookSubjectQuery subs language limit page j) = []) →
      bookLoop oracle subs language limit page emotion k =
        ((rank_books (oracle (bookSubjectQuery subs language limit page k0))).map
            (List.map (tagBook emotion (subs.take k0))),
          (countdownQueries subs language limit page k).take (k + 1 - k0)) := by
  intro k
  induction k with
  | zero => intro k0 h1 h2 _ _; omega
  | succ k ih =>
    intro k0 h1 h2 hne hemp
    rw [show bookLoop oracle subs language limit page emotion (k + 1) =
        (if oracle (bookSubjectQuery subs language limit page (k + 1)) = [] then
          ((bookLoop oracle subs language limit page emotion k).1,
            bookSubjectQuery subs language limit page (k + 1) ::
              (bookLoop oracle subs language limit page emotion k).2)
        else
          ((rank_books (oracle (bookSubjectQuery subs language limit page (k + 1)))).map
              (List.map (tagBook emotion (subs.take (k + 1)))),
            [bookSubjectQuery subs language limit page (k + 1)])) from rfl]
    by_cases hk0 : k0 = k + 1
    · rw [if_neg (by rw [← hk0]; exact hne)]
      rw [hk0]
      have : k + 1 + 1 - (k + 1) = 1 := by omega
      rw [this]
      simp [countdownQueries]
    · have hk0le : k0 ≤ k := by omega
      have hkem : oracle (bookSubjectQuery subs language limit page (k + 1)) = [] :=
        hemp (k + 1) (by omega) (le_refl _)
      rw [if_pos hkem]
      rw [ih k0 h1 hk0le hne (fun j hj1 hj2 => hemp j hj1 (hj2.trans (Nat.le_succ k)))]
      have harith : k + 1 + 1 - k0 = (k + 1 - k0) + 1 := by omega
      rw [harith]
      simp [countdownQueries, List.take_succ_cons]

/-! ## Claims -/

/-- C1 (amended): for the BOOKS engine the claimed relaxation holds: for
every oracle, emotion, mode, language, limit and page, writing C for the
category list of (emotion, mode) and n for its length, (a) if some front
part of C yields results and k0 is the longest such length, the engine
issues exactly the filtered queries for prefix lengths n down to k0 and
immediately returns the k0 result ranked by the quality comparator and
tagged; (b) if every prefix yields nothing, the engine issues the
filtered queries for lengths n down to 1 followed by exactly one
unfiltered query with the same language and paging, and returns that
query's possibly empty result ranked by the coarser popularity comparator
and tagged with the no-categories marker.  The MOVIES engine does not
implement this strategy (see the counterexample). -/
theorem C1_books_relaxation (oracle : BookQuery → List Item) (emotion mode : String)
    (language : Option String) (per_page page : ℕ) :
    (∀ k0, 1 ≤ k0 → k0 ≤ (categoriesForBooks emotion mode).length →
      oracle (bookSubjectQuery (categoriesForBooks emotion mode) language per_page page k0) ≠ [] →
      (∀ j, k0 < j → j ≤ (categoriesForBooks emotion mode).length →
        oracle (bookSubjectQuery (categoriesForBooks emotion mode) language per_page page j) = []) →
      discover_books_for_emotion oracle emotion mode language per_page page =
        ((rank_books (oracle (bookSubjectQuery (categoriesForBooks emotion mode) language
              per_page page k0))).map
            (List.map (tagBook emotion ((categoriesForBooks emotion mode).take k0))),
          (countdownQueries (categoriesForBooks emotion mode) language per_page page
              (categoriesForBooks emotion mode).length).take
            ((categoriesForBooks emotion mode).length + 1 - k0))) ∧
    ((∀ j, 1 ≤ j → j ≤ (categoriesForBooks emotion mode).length →
        oracle (bookSubjectQuery (categoriesForBooks emotion mode) language per_page page j) = []) →
      discover_books_for_emotion oracle emotion mode language per_page page =
        ((rankBooksFallback (oracle (bookFallbackQuery language per_page page))).map
            (List.map (tagBookFallback emotion)),
          countdownQueries (categoriesForBooks emotion mode) language per_page page
              (categoriesForBooks emotion mode).length ++
            [bookFallbackQuery language per_page page])) := by
  constructor
  · intro k0 h1 h2 hne hemp
    unfold discover_books_for_emotion
    exact bookLoop_hit oracle _ language per_page page emotion _ k0 h1 h2 hne hemp
  · intro h
    unfold discover_books_for_emotion
    exact bookLoop_all_empty oracle _ language per_page page emotion _ h

/-- C1 (counterexample): the MOVIES relaxation engine falsifies the claim.
With the Happy/match genre row resolved against a four-genre id table and
a catalog oracle that returns no results for any query, the engine issues
exactly two queries, both still carrying the full genre filter (no
prefix countdown from 4 down to 1, and no final unfiltered query), and
returns None instead of the result list of an unfiltered query. -/
theorem C1_movies_counterexample :
    (discover_movies_for_emotion
        [("Comedy", 35), ("Romance", 10749), ("Family", 10751), ("Animation", 16)]
        (fun _ => []) "Happy" "match" "en-US" none 1 100 false none).1 = none ∧
    (discover_movies_for_emotion
        [("Comedy", 35), ("Romance", 10749), ("Family", 10751), ("Animation", 16)]
        (fun _ => []) "Happy" "match" "en-US" none 1 100 false none).2.length = 2 ∧
    ∀ q ∈ (discover_movies_for_emotion
        [("Comedy", 35), ("Romance", 10749), ("Family", 10751), ("Animation", 16)]
        (fun _ => []) "Happy" "match" "en-US" none 1 100 false none).2,
      q.with_genres = some "35,10749,10751,16" := by
  with_unfolding_all decide

/-- C1 (witness): a concrete run of the books engine whose oracle answers
only the two-subject prefix of the Happy match row: the engine stops the
countdown at prefix length 2 and returns that ranked, tagged result. -/
theorem C1_books_witness :
    discover_books_for_emotion
        (fun q => if q.subjects = ["Humor", "Romance"] then
          [[("title", Val.str "T1"), ("key", Val.str "/works/W1")]] else [])
        "Happy" "match" (some "eng") 24 1 =
      ((rank_books ((fun (q : BookQuery) => if q.subjects = ["Humor", "Romance"] then
            [[("title", Val.str "T1"), ("key", Val.str "/works/W1")]] else [])
            (bookSubjectQuery (categoriesForBooks "Happy" "match") (some "eng") 24 1 2))).map
          (List.map (tagBook "Happy" ((categoriesForBooks "Happy" "match").take 2))),
        (countdownQueries (categoriesForBooks "Happy" "match") (some "eng") 24 1
            (categoriesForBooks "Happy" "match").length).take
          ((categoriesForBooks "Happy" "match").length + 1 - 2)) :=
  (C1_books_relaxation
      (fun q => if q.subjects = ["Humor", "Romance"] then
        [[("title", Val.str "T1"), ("key", Val.str "/works/W1")]] else [])
      "Happy" "match" (some "eng") 24 1).1 2 (by decide) (by decide) (by decide)
    (by
      intro j hj1 hj2
      have hj4 : j ≤ 4 := le_trans hj2 (by decide)
      interval_cases j <;> decide)

/-- C2 (amended): each aggregator scores an item as the emotion
probability times the item's popularity proxy; the books aggregator
defaults the proxy to 1 when the edition_count field is absent, so such
an item's score equals the emotion probability, but the movie aggregator
defaults popularity to 0 when absent, so a movie lacking the field always
receives score 0 no matter the probability. -/
theorem C2_score_defaults :
    (∀ (p : ℚ) (d : Item), fget d "edition_count" = none → scoreBook p d = .ok p) ∧
    (∀ (p : ℚ) (m : Item), fget m "popularity" = none → scoreMovie p m = .ok 0) ∧
    (∀ (p q : ℚ) (d : Item), q ≠ 0 → fget d "edition_count" = some (Val.num q) →
      scoreBook p d = .ok (p * q)) ∧
    (∀ (p q : ℚ) (m : Item), fget m "popularity" = some (Val.num q) →
      scoreMovie p m = .ok (p * q)) := by
  refine ⟨?_, ?_, ?_, ?_⟩
  · intro p d h
    unfold scoreBook bookScoreVal fgetD
    rw [h]
    simp [Val.truthy, pyFloat, Except.map]
  · intro p m h
    unfold scoreMovie fgetD
    rw [h]
    simp [Val.truthy, pyFloat, Except.map]
  · intro p q d hq h
    unfold scoreBook bookScoreVal fgetD
    rw [h]
    simp [Val.truthy, pyFloat, Except.map, hq]
  · intro p q m h
    unfold scoreMovie fgetD
    rw [h]
    simp [pyFloat, Except.map]

/-- C2 (counterexample): the movie aggregator assigns score 0 to an item
lacking the popularity field even though the selected emotion carries a
positive probability, contradicting the claim that no such item receives
score 0. -/
theorem C2_movie_zero_counterexample :
    recommend_from_probs [("Comedy", 35)]
        (fun _ => [[("id", Val.str "m1"), ("title", Val.str "T")]])
        [0, 0, 0, 9, 0, 0, 0] EMO_CLASSES "match" "en-US" none 100 false none 1 10 =
      .ok [[("id", Val.str "m1"), ("title", Val.str "T"), ("_mood", Val.str "Happy"),
        ("_score", Val.num 0)]] := by
  with_unfolding_all decide

/-- C2 (witness): the two default rules evaluated on a record without the
relevant field, at probability 5. -/
theorem C2_score_defaults_witness :
    scoreBook 5 [("title", Val.str "T")] = .ok 5 ∧
    scoreMovie 5 [("title", Val.str "T")] = .ok 0 ∧
    scoreBook 5 [("edition_count", Val.num 3)] = .ok (5 * 3) ∧
    scoreMovie 5 [("popularity", Val.num 4)] = .ok (5 * 4) :=
  ⟨C2_score_defaults.1 5 [("title", Val.str "T")] rfl,
   C2_score_defaults.2.1 5 [("title", Val.str "T")] rfl,
   C2_score_defaults.2.2.1 5 3 [("edition_count", Val.num 3)] (by norm_num) rfl,
   C2_score_defaults.2.2.2 5 4 [("popularity", Val.num 4)] rfl⟩

/-- C3 (amended): the aggregator selects the k indices of highest
probability in descending order, but a tie between two probabilities is
ordered with the HIGHER original index first, because the code reverses a
stable ascending argsort; the claim's lower-index-first tie rule is
falsified by the counterexample. -/
theorem C3_topk_selection (y_prob : List ℚ) (k : ℕ) :
    top_idxs y_prob k = ((argsortAsc y_prob).reverse).take k ∧
    List.Perm (argsortAsc y_prob).reverse (List.range y_prob.length) ∧
    (argsortAsc y_prob).reverse.Pairwise
      (fun i j => y_prob.getD j 0 < y_prob.getD i 0 ∨
        (y_prob.getD i 0 = y_prob.getD j 0 ∧ j < i)) := by
  refine ⟨rfl, ?_, ?_⟩
  · exact (List.reverse_perm _).trans (List.perm_insertionSort _ _)
  · haveI : IsTotal ℕ (argsortLe y_prob) := ⟨argsortLe_total y_prob⟩
    haveI : IsTrans ℕ (argsortLe y_prob) := ⟨argsortLe_trans y_prob⟩
    have hs : List.Pairwise (argsortLe y_prob) (argsortAsc y_prob) :=
      List.sorted_insertionSort (argsortLe y_prob) (List.range y_prob.length)
    have hnd : (argsortAsc y_prob).Nodup :=
      (List.perm_insertionSort _ _).nodup_iff.mpr (List.nodup_range _)
    rw [List.pairwise_reverse]
    refine (hs.and hnd).imp ?_
    intro i j hij
    obtain ⟨hle, hne⟩ := hij
    rcases hle with hlt | ⟨heq, hidx⟩
    · exact Or.inl hlt
    · exact Or.inr ⟨heq.symm, lt_of_le_of_ne hidx hne⟩

/-- C3 (counterexample): the two highest probabilities are equal at
indices 0 and 1, and the code selects index 1 first, falsifying the
claimed lower-index-first tie break. -/
theorem C3_tie_counterexample :
    [(5 : ℚ), 5, 0, 0, 0, 0, 0].getD 0 0 = [(5 : ℚ), 5, 0, 0, 0, 0, 0].getD 1 0 ∧
    top_idxs [5, 5, 0, 0, 0, 0, 0] 2 = [1, 0] := by decide

/-- C4 (amended): in the deduplication step keyless items are NOT each
treated as unique: every item lacking the identity field maps to the
shared seen-key None, so of all keyless items in the sorted pool exactly
the first one survives and every later one is dropped. -/
theorem C4_keyless_collide (f : String) (l : List Item) :
    (dedupBy f l []).filter (fun d => decide (fget d f = none)) =
      (l.filter (fun d => decide (fget d f = none))).take 1 := by
  have h := dedupBy_filter f none l []
  simpa using h

/-- C4 (counterexample): two distinct items both lacking the key field do
NOT both survive deduplication; the second collides with the first on the
None key and is dropped. -/
theorem C4_keyless_counterexample :
    fget [("title", Val.str "A")] "key" = none ∧
    fget [("title", Val.str "B")] "key" = none ∧
    [("title", Val.str "A")] ≠ [("title", Val.str "B")] ∧
    dedupBy "key" [[("title", Val.str "A")], [("title", Val.str "B")]] [] =
      [[("title", Val.str "A")]] := by decide

/-- C5 (amended): for every pool of scored items (every pooled item
carries a numeric score, as the aggregator guarantees) and every shared
identity key value, the sorted pool deduplicates to exactly one entry for
that key, namely the first occurrence in the descending order, which
scores at least as high as every pooled item with that key; the
aggregator's final output is the 20 item front part of the deduplicated
pool, so it contains AT MOST that one entry, and can lose it entirely to
the hard cap (see the counterexample), contrary to the exactly-one
phrasing of the claim. -/
theorem C5_dedup_keeps_best (pool : List Item) (kv : Val)
    (hnum : ∀ x ∈ pool, ∃ q, scoreKey x = Val.num q)
    (hshare : 2 ≤ (pool.filter (fun d => decide (fget d "key" = some kv))).length) :
    ∃ s d0, sortD ltScore pool = .ok s ∧
      (s.filter (fun d => decide (fget d "key" = some kv))).head? = some d0 ∧
      (dedupBy "key" s []).filter (fun d => decide (fget d "key" = some kv)) = [d0] ∧
      (∀ d2 ∈ pool, fget d2 "key" = some kv → ltScore d0 d2 ≠ some true) ∧
      (∀ out, aggTail "key" pool = .ok out →
        (out.filter (fun d => decide (fget d "key" = some kv))).length ≤ 1) := by
  obtain ⟨s, hs⟩ := sortD_total ltScore pool (by
    intro a ha b hb
    obtain ⟨qa, hqa⟩ := hnum a ha
    obtain ⟨qb, hqb⟩ := hnum b hb
    unfold ltScore
    rw [hqa, hqb]
    simp [pyLt])
  have hperm : List.Perm s pool := sortD_perm ltScore pool s hs
  have hfp : List.Perm (s.filter (fun d => decide (fget d "key" = some kv)))
      (pool.filter (fun d => decide (fget d "key" = some kv))) := hperm.filter _
  have hflen : 2 ≤ (s.filter (fun d => decide (fget d "key" = some kv))).length := by
    rw [hfp.length_eq]; exact hshare
  cases hsf : s.filter (fun d => decide (fget d "key" = some kv)) with
  | nil => rw [hsf] at hflen; simp at hflen
  | cons d0 t =>
    have hd0s : d0 ∈ s := by
      have : d0 ∈ s.filter (fun d => decide (fget d "key" = some kv)) := by
        rw [hsf]; exact List.mem_cons_self d0 t
      exact (List.mem_filter.mp this).1
    have hd0pool : d0 ∈ pool := hperm.mem_iff.mp hd0s
    have hsw : ∀ a b : Item, ltScore a b = some true → ltScore b a = some false := by
      intro a b h
      exact pyLt_swap h
    have hchain : List.Chain' (fun a b => ltScore a b = some false) s :=
      sortD_chain ltScore hsw pool s hs
    have hpw : List.Pairwise (fun a b => ltScore a b = some false) s := by
      refine chain'_pairwise _ s hchain ?_
      intro a ha b hb c hc hab hbc
      obtain ⟨qa, hqa⟩ := hnum a (hperm.mem_iff.mp ha)
      obtain ⟨qb, hqb⟩ := hnum b (hperm.mem_iff.mp hb)
      obtain ⟨qc, hqc⟩ := hnum c (hperm.mem_iff.mp hc)
      unfold ltScore at hab hbc ⊢
      rw [hqa, hqb] at hab
      rw [hqb, hqc] at hbc
      rw [hqa, hqc]
      simp only [pyLt, Option.some.injEq, decide_eq_false_iff_not, not_lt] at hab hbc ⊢
      exact hbc.trans hab
    have hpwf : List.Pairwise (fun a b => ltScore a b = some false)
        (s.filter (fun d => decide (fget d "key" = some kv))) := hpw.filter _
    rw [hsf] at hpwf
    have hhead : ∀ y ∈ t, ltScore d0 y = some false := (List.pairwise_cons.mp hpwf).1
    refine ⟨s, d0, hs, by rw [hsf]; rfl, ?_, ?_, ?_⟩
    · have h := dedupBy_filter "key" (some kv) s []
      simp only [List.not_mem_nil, if_false] at h
      rw [h, hsf]
      rfl
    · intro d2 hd2 hkey
      have hd2s : d2 ∈ s := hperm.mem_iff.mpr hd2
      have hd2f : d2 ∈ s.filter (fun d => decide (fget d "key" = some kv)) :=
        List.mem_filter.mpr ⟨hd2s, by simp [hkey]⟩
      rw [hsf] at hd2f
      rcases List.mem_cons.mp hd2f with rfl | hd2t
      · obtain ⟨q, hq⟩ := hnum d2 hd2
        unfold ltScore
        rw [hq]
        simp [pyLt]
      · rw [hhead d2 hd2t]
        simp
    · intro out hout
      unfold aggTail at hout
      rw [hs] at hout
      simp only [Except.map, Except.ok.injEq] at hout
      have hsub : List.Sublist (out.filter (fun d => decide (fget d "key" = some kv)))
          ((dedupBy "key" s []).filter (fun d => decide (fget d "key" = some kv))) := by
        rw [← hout]
        exact (List.take_sublist 20 _).filter _
      have h1 := hsub.length_le
      have h2 : ((dedupBy "key" s []).filter
          (fun d => decide (fget d "key" = some kv))).length = 1 := by
        have h := dedupBy_filter "key" (some kv) s []
        simp only [List.not_mem_nil, if_false] at h
        rw [h, hsf]
        rfl
      omega

/-- C5 (counterexample): with 22 scored items of which two share the key
a20 with scores 1 and 0 while every other key scores higher, the
aggregator tail returns successfully but its output contains NO entry for
the shared key: deduplication kept the score-1 occurrence, and the hard
cap of 20 then dropped it, falsifying the claimed exactly-one entry. -/
theorem C5_cap_counterexample :
    (poolTwentyTwo.filter (fun d => decide (fget d "key" = some (Val.str "a20")))).length = 2 ∧
    ∃ out, aggTail "key" poolTwentyTwo = .ok out ∧
      out.filter (fun d => decide (fget d "key" = some (Val.str "a20"))) = [] ∧
      out.length = 20 := by
  refine ⟨by with_unfolding_all decide, ?_⟩
  refine ⟨(List.range 20).map
      (fun i => [("key", Val.str ("a" ++ toString i)), ("_score", Val.num (21 - (i : ℚ)))]),
    ?_, ?_, ?_⟩ <;> with_unfolding_all decide

/-- C5 (witness): the theorem applied to the two-item pool of the spec's
own example, scores 5 and 3 on a shared key. -/
theorem C5_dedup_witness :
    ∃ s d0, sortD ltScore [[("key", Val.str "x"), ("_score", Val.num 5)],
        [("key", Val.str "x"), ("_score", Val.num 3)]] = .ok s ∧
      (s.filter (fun d => decide (fget d "key" = some (Val.str "x")))).head? = some d0 ∧
      (dedupBy "key" s []).filter (fun d => decide (fget d "key" = some (Val.str "x"))) = [d0] ∧
      (∀ d2 ∈ [[("key", Val.str "x"), ("_score", Val.num 5)],
          [("key", Val.str "x"), ("_score", Val.num 3)]],
        fget d2 "key" = some (Val.str "x") → ltScore d0 d2 ≠ some true) ∧
      (∀ out, aggTail "key" [[("key", Val.str "x"), ("_score", Val.num 5)],
          [("key", Val.str "x"), ("_score", Val.num 3)]] = .ok out →
        (out.filter (fun d => decide (fget d "key" = some (Val.str "x")))).length ≤ 1) :=
  C5_dedup_keeps_best
    [[("key", Val.str "x"), ("_score", Val.num 5)], [("key", Val.str "x"), ("_score", Val.num 3)]]
    (Val.str "x")
    (by
      intro x hx
      rcases List.mem_cons.mp hx with rfl | hx2
      · exact ⟨5, rfl⟩
      · rcases List.mem_cons.mp hx2 with rfl | hx3
        · exact ⟨3, rfl⟩
        · simp at hx3)
    (by decide)

/-- Any successful run of the shared aggregator tail is capped at 20
items. -/
theorem aggTail_length_le (f : String) (pool l : List Item) (h : aggTail f pool = .ok l) :
    l.length ≤ 20 := by
  unfold aggTail at h
  cases hs : sortD ltScore pool with
  | error e => rw [hs] at h; exact absurd h (by simp [Except.map])
  | ok s =>
    rw [hs] at h
    simp only [Except.map, Except.ok.injEq] at h
    rw [← h]
    exact List.length_take_le _ _

/-- C6: whatever the probability vector, oracle behaviour and pool size,
any list either aggregator returns has at most 20 entries. -/
theorem C6_hard_cap :
    (∀ oracle y_prob class_names mode k per_emotion language_ol l,
      recommend_books_from_probs oracle y_prob class_names mode k per_emotion language_ol =
        .ok l → l.length ≤ 20) ∧
    (∀ genreMap oracle y_prob class_names mode language region min_votes include_adult
        recent_gte k per_emotion l,
      recommend_from_probs genreMap oracle y_prob class_names mode language region min_votes
        include_adult recent_gte k per_emotion = .ok l → l.length ≤ 20) := by
  constructor
  · intro oracle y_prob class_names mode k per_emotion language_ol l h
    unfold recommend_books_from_probs at h
    cases hb : buildPoolBooks oracle y_prob class_names mode per_emotion language_ol
        (top_idxs y_prob k) with
    | error e => rw [hb] at h; exact absurd h (by simp [Except.bind])
    | ok pool =>
      rw [hb] at h
      simp only [Except.bind] at h
      exact aggTail_length_le "key" pool l h
  · intro genreMap oracle y_prob class_names mode language region min_votes include_adult
      recent_gte k per_emotion l h
    unfold recommend_from_probs at h
    cases hb : buildPoolMovies genreMap oracle y_prob class_names mode language region
        min_votes include_adult recent_gte per_emotion (top_idxs y_prob k) with
    | error e => rw [hb] at h; exact absurd h (by simp [Except.bind])
    | ok pool =>
      rw [hb] at h
      simp only [Except.bind] at h
      exact aggTail_length_le "id" pool l h

/-- C6 (witness): concrete successful runs of both aggregators, capped at
20. -/
theorem C6_hard_cap_witness :
    recommend_books_from_probs (fun _ => [[("key", Val.str "/works/W1"), ("title", Val.str "T")]])
        [0, 0, 0, 9, 0, 0, 0] EMO_CLASSES "match" 1 8 (some "eng") =
      .ok [[("key", Val.str "/works/W1"), ("title", Val.str "T"), ("_mood", Val.str "Happy"),
        ("_subjects", Val.str "Humor, Romance, Family life, Comics & graphic novels"),
        ("_cover", Val.null), ("_work_url", Val.str "https://openlibrary.org/works/W1"),
        ("_score", Val.num 9)]] ∧
    [[("key", Val.str "/works/W1"), ("title", Val.str "T"), ("_mood", Val.str "Happy"),
        ("_subjects", Val.str "Humor, Romance, Family life, Comics & graphic novels"),
        ("_cover", Val.null), ("_work_url", Val.str "https://openlibrary.org/works/W1"),
        ("_score", Val.num 9)]].length ≤ 20 ∧
    recommend_from_probs [("Drama", 18)] (fun _ => [[("id", Val.num 7), ("popularity", Val.num 4)]])
        [0, 0, 0, 0, 3, 0, 0] EMO_CLASSES "match" "en-US" none 100 false none 1 10 =
      .ok [[("id", Val.num 7), ("popularity", Val.num 4), ("_mood", Val.str "Sad"),
        ("_score", Val.num 12)]] ∧
    [[("id", Val.num 7), ("popularity", Val.num 4), ("_mood", Val.str "Sad"),
        ("_score", Val.num 12)]].length ≤ 20 :=
  ⟨by with_unfolding_all decide,
   C6_hard_cap.1 (fun _ => [[("key", Val.str "/works/W1"), ("title", Val.str "T")]])
     [0, 0, 0, 9, 0, 0, 0] EMO_CLASSES "match" 1 8 (some "eng") _
     (by with_unfolding_all decide),
   by with_unfolding_all decide,
   C6_hard_cap.2 [("Drama", 18)] (fun _ => [[("id", Val.num 7), ("popularity", Val.num 4)]])
     [0, 0, 0, 0, 3, 0, 0] EMO_CLASSES "match" "en-US" none 100 false none 1 10 _
     (by with_unfolding_all decide)⟩

/-- C7: every emotion string outside the seven recognized labels resolves,
for both domains and every mode, to exactly the Neutral row's categories
for that mode, with no failure. -/
theorem C7_unknown_emotion_neutral (emotion : String) (h : emotion ∉ EMO_CLASSES)
    (mode : String) :
    categoriesForBooks emotion mode = categoriesForBooks "Neutral" mode ∧
    categoriesForMovies emotion mode = categoriesForMovies "Neutral" mode := by
  simp only [EMO_CLASSES, List.mem_cons, not_or] at h
  obtain ⟨h1, h2, h3, h4, h5, h6, h7, -⟩ := h
  constructor
  · unfold categoriesForBooks
    simp [alist_get, BOOK_MOOD_SUBJECTS, Ne.symm h1, Ne.symm h2, Ne.symm h3, Ne.symm h4,
      Ne.symm h5, Ne.symm h6, Ne.symm h7]
  · unfold categoriesForMovies
    simp [alist_get, MOOD_GENRES, Ne.symm h1, Ne.symm h2, Ne.symm h3, Ne.symm h4,
      Ne.symm h5, Ne.symm h6, Ne.symm h7]

/-- C7 (witness): the unrecognized label Bored resolves to the Neutral
categories in both domains. -/
theorem C7_unknown_emotion_witness :
    categoriesForBooks "Bored" "lift" = categoriesForBooks "Neutral" "lift" ∧
    categoriesForMovies "Bored" "lift" = categoriesForMovies "Neutral" "lift" :=
  C7_unknown_emotion_neutral "Bored" (by decide) "lift"

/-- C8 (amended): both book comparators evaluate without raising on every
record whose count and year fields are absent, falsy or numeric: a
missing or non-numeric rating degrades to the sentinel -1, which compares
strictly below every nonnegative valid rating, and a missing count or
year compares as 0.  But a truthy non-numeric count or year value is kept
by the `or 0` coercion and enters the tuple comparison, where it raises
TypeError against a numeric value once the earlier key components tie
(see the counterexample), so the never-raises part of the original claim
fails for such junk values. -/
theorem C8_comparator_degrades :
    (∀ docs : List Item,
      (∀ d ∈ docs, (∃ q, numOr0 d "edition_count" = Val.num q) ∧
        (∃ q, numOr0 d "first_publish_year" = Val.num q)) →
      (∃ l, rank_books docs = .ok l) ∧ (∃ l, rankBooksFallback docs = .ok l)) ∧
    (∀ d : Item, (∀ q : ℚ, fget d "ratings_average" ≠ some (Val.num q)) →
      raKey d = Val.num (-1)) ∧
    (∀ d : Item, fget d "edition_count" = none → numOr0 d "edition_count" = Val.num 0) ∧
    (∀ d : Item, fget d "first_publish_year" = none →
      numOr0 d "first_publish_year" = Val.num 0) ∧
    (∀ q : ℚ, 0 ≤ q → pyLt (Val.num (-1)) (Val.num q) = some true) := by
  refine ⟨?_, ?_, ?_, ?_, ?_⟩
  · intro docs hgood
    have hq : ∀ d ∈ docs, ∀ x ∈ bookQualityKey d, ∃ q, x = Val.num q := by
      intro d hd x hx
      obtain ⟨⟨qe, he⟩, ⟨qy, hy⟩⟩ := hgood d hd
      unfold bookQualityKey at hx
      rcases List.mem_cons.mp hx with rfl | hx2
      · exact raKey_isNum d
      · rcases List.mem_cons.mp hx2 with rfl | hx3
        · exact ⟨qe, he⟩
        · rcases List.mem_cons.mp hx3 with rfl | hx4
          · exact ⟨qy, hy⟩
          · simp at hx4
    have hp : ∀ d ∈ docs, ∀ x ∈ bookPopKey d, ∃ q, x = Val.num q := by
      intro d hd x hx
      obtain ⟨⟨qe, he⟩, ⟨qy, hy⟩⟩ := hgood d hd
      unfold bookPopKey at hx
      rcases List.mem_cons.mp hx with rfl | hx2
      · exact ⟨qe, he⟩
      · rcases List.mem_cons.mp hx2 with rfl | hx3
        · exact ⟨qy, hy⟩
        · simp at hx3
    constructor
    · exact sortD_total ltQuality docs
        (fun a ha b hb => pyListLt_isSome_of_num _ _ (hq a ha) (hq b hb))
    · exact sortD_total ltPopBooks docs
        (fun a ha b hb => pyListLt_isSome_of_num _ _ (hp a ha) (hp b hb))
  · intro d hra
    unfold raKey
    cases hr : fget d "ratings_average" with
    | none => rfl
    | some v =>
      cases v with
      | num q => exact absurd hr (hra q)
      | str s => rfl
      | null => rfl
  · intro d h
    unfold numOr0 fgetD
    rw [h]
    rfl
  · intro d h
    unfold numOr0 fgetD
    rw [h]
    rfl
  · intro q hq
    simp only [pyLt, Option.some.injEq, decide_eq_true_eq]
    linarith

/-- C8 (counterexample): two records tie on the rating sentinel; a truthy
string edition count is then compared against a numeric one and both
comparators raise TypeError, falsifying the claimed never-raises
behaviour for non-numeric count values. -/
theorem C8_junk_count_counterexample :
    rank_books [[("edition_count", Val.str "junk")], [("edition_count", Val.num 5)]] =
      .error () ∧
    rankBooksFallback [[("edition_count", Val.str "junk")], [("edition_count", Val.num 5)]] =
      .error () := by decide

/-- C8 (witness): the amended sentencing applied to concrete records:
both rankings succeed on well-shaped records, the degradations evaluate
as stated, and the sentinel sits below the rating 0. -/
theorem C8_comparator_witness :
    ((∃ l, rank_books [[("ratings_average", Val.num 4)], [("title", Val.str "T")]] = .ok l) ∧
      (∃ l, rankBooksFallback [[("ratings_average", Val.num 4)], [("title", Val.str "T")]] =
        .ok l)) ∧
    raKey [("ratings_average", Val.str "bad")] = Val.num (-1) ∧
    numOr0 [("title", Val.str "T")] "edition_count" = Val.num 0 ∧
    numOr0 [("title", Val.str "T")] "first_publish_year" = Val.num 0 ∧
    pyLt (Val.num (-1)) (Val.num 0) = some true :=
  ⟨C8_comparator_degrades.1 [[("ratings_average", Val.num 4)], [("title", Val.str "T")]]
      (by
        intro d hd
        rcases List.mem_cons.mp hd with rfl | hd2
        · exact ⟨⟨0, rfl⟩, ⟨0, rfl⟩⟩
        · rcases List.mem_cons.mp hd2 with rfl | hd3
          · exact ⟨⟨0, rfl⟩, ⟨0, rfl⟩⟩
          · simp at hd3),
   C8_comparator_degrades.2.1 [("ratings_average", Val.str "bad")]
      (by intro q h; simp [fget, alist_get] at h),
   C8_comparator_degrades.2.2.1 [("title", Val.str "T")] rfl,
   C8_comparator_degrades.2.2.2.1 [("title", Val.str "T")] rfl,
   C8_comparator_degrades.2.2.2.2 0 (le_refl 0)⟩

/-- C9: the quality-first ranking is idempotent: whenever it returns a
list, ranking that list again returns it unchanged; and the sort is
stable: within every class of records sharing a quality key, the output
preserves the input order. -/
theorem C9_rank_idempotent :
    (∀ docs l, rank_books docs = .ok l → rank_books l = .ok l) ∧
    (∀ docs l, rank_books docs = .ok l → ∀ K : List Val,
      l.filter (fun d => decide (bookQualityKey d = K)) =
        docs.filter (fun d => decide (bookQualityKey d = K))) := by
  have hsw : ∀ a b : Item, ltQuality a b = some true → ltQuality b a = some false := by
    intro a b h
    exact pyListLt_swap h
  constructor
  · intro docs l h
    exact sortD_of_chain ltQuality l (sortD_chain ltQuality hsw docs l h)
  · intro docs l h K
    refine sortD_filter_key ltQuality bookQualityKey ?_ docs l h K
    intro a b hab
    unfold ltQuality
    rw [hab, pyListLt_self]
    simp

/-- C9 (witness): ranking a concrete two-record list and ranking its
ranked output, which is returned unchanged. -/
theorem C9_rank_idempotent_witness :
    rank_books [[("ratings_average", Val.num 3)], [("ratings_average", Val.num 4)]] =
      .ok [[("ratings_average", Val.num 4)], [("ratings_average", Val.num 3)]] ∧
    rank_books [[("ratings_average", Val.num 4)], [("ratings_average", Val.num 3)]] =
      .ok [[("ratings_average", Val.num 4)], [("ratings_average", Val.num 3)]] :=
  ⟨by decide,
   C9_rank_idempotent.1 [[("ratings_average", Val.num 3)], [("ratings_average", Val.num 4)]]
     [[("ratings_average", Val.num 4)], [("ratings_average", Val.num 3)]] (by decide)⟩

/-- C10: in the movie domain, when every issued discover query returns an
empty list and no recency constraint is supplied, the engine issues
exactly two (filtered) queries and returns None rather than an empty
list; the aggregator then slices that None, which raises TypeError, so
recommendation construction errors out instead of producing a list. -/
theorem C10_movie_none_propagates (genreMap : List (String × ℤ))
    (oracle : MovieQuery → List Item) (emotion mode language : String)
    (region : Option String) (page : ℕ) (min_votes : ℤ) (include_adult : Bool)
    (hempty : ∀ q, oracle q = []) :
    (discover_movies_for_emotion genreMap oracle emotion mode language region page min_votes
        include_adult none).1 = none ∧
    (discover_movies_for_emotion genreMap oracle emotion mode language region page min_votes
        include_adult none).2.length = 2 ∧
    (∀ (y_prob : List ℚ) (class_names : List String) (k per_emotion : ℕ),
      y_prob ≠ [] → 1 ≤ k →
      recommend_from_probs genreMap oracle y_prob class_names mode language region min_votes
        include_adult none k per_emotion = .error ()) := by
  have hd : ∀ (e : String) (pg : ℕ),
      (discover_movies_for_emotion genreMap oracle e mode language region pg min_votes
        include_adult none).1 = none ∧
      (discover_movies_for_emotion genreMap oracle e mode language region pg min_votes
        include_adult none).2.length = 2 := by
    intro e pg
    unfold discover_movies_for_emotion
    simp [hempty, optTruthy]
  refine ⟨(hd emotion page).1, (hd emotion page).2, ?_⟩
  intro y_prob class_names k per_emotion hy hk
  have hne := top_idxs_ne_nil y_prob k hy hk
  unfold recommend_from_probs
  cases htop : top_idxs y_prob k with
  | nil => exact absurd htop hne
  | cons i rest =>
    cases hcn : class_names[i]? with
    | none => simp [buildPoolMovies, hcn, Except.bind]
    | some emo =>
      have h1 : (discover_movies_for_emotion genreMap oracle emo mode language region 1
          min_votes include_adult none).1 = none := (hd emo 1).1
      simp [buildPoolMovies, hcn, h1, Except.bind]

/-- C10 (witness): a concrete all-empty catalog: two queries, a None
return, and an erroring aggregator run. -/
theorem C10_movie_none_witness :
    (discover_movies_for_emotion [] (fun _ => []) "Happy" "match" "en-US" none 1 100 false
      none).1 = none ∧
    (discover_movies_for_emotion [] (fun _ => []) "Happy" "match" "en-US" none 1 100 false
      none).2.length = 2 ∧
    recommend_from_probs [] (fun _ => []) [1, 0, 0, 0, 0, 0, 0] EMO_CLASSES "match" "en-US"
      none 100 false none 2 10 = .error () := by
  have h := C10_movie_none_propagates [] (fun _ => []) "Happy" "match" "en-US" none 1 100
    false (fun _ => rfl)
  exact ⟨h.1, h.2.1, h.2.2 [1, 0, 0, 0, 0, 0, 0] EMO_CLASSES 2 10 (by decide) (by decide)⟩
